import Mathlib

/-!
# OpenGL-Learning: the shader source splitter and the shader build sequence

A shallow embedding of `OpenGL Learning/OpenGL Learning/src/main.cpp` (the quad demo) and of
`OpenGL Learning/OpenGL Learning/main.cpp` (the triangle demo).

* `std::string` is a list of characters (`Str`).
* `std::string::find` returns `Option Nat`; `none` stands for `std::string::npos`.
* The file system is a function from a path to the content of the file, `none` when the file
  cannot be opened; an open `std::ifstream` is the list of characters not yet read.
* The graphics context is an abstract driver (`GLDriver`) that answers every query as a function
  of the calls issued so far; the calls issued are recorded in a trace.
-/

namespace OpenGLLearning

/-- A `std::string`. -/
abbrev Str := List Char

/-! ## `ParseShader` (src/main.cpp, lines 20-57) -/

/-- Model of `std::string::find(pat)`: the first index at which `pat` occurs in `s`,
`none` for `npos`. -/
def find : Str → Str → Option Nat
  | [], pat => if pat.isEmpty then some 0 else none
  | c :: cs, pat =>
    if pat.isPrefixOf (c :: cs) then some 0 else (find cs pat).map (· + 1)

/-- The record `struct ShaderProgramSource` (field names as in the source). -/
structure ShaderProgramSource where
  VertexSoucer : Str
  FragmentSource : Str
  deriving DecidableEq

/-- The local `enum class ShaderType { NONE = -1, VERTEX = 0, FRAGMENT = 1 }`. -/
inductive ShaderType where
  | NONE
  | VERTEX
  | FRAGMENT
  deriving DecidableEq

/-- The locals of `ParseShader` that live across loop iterations: `type` and the two string
streams `ss[0]`, `ss[1]` (each given by the text written to it so far). -/
structure ScanState where
  type : ShaderType
  ss0 : Str
  ss1 : Str
  deriving DecidableEq

/-- The state before the loop: `type = ShaderType::NONE`, both streams empty. -/
def ScanState.init : ScanState := ⟨ShaderType.NONE, [], []⟩

/-- The body of the `while` loop of `ParseShader` (lines 43-53) for one `line`.
`ss[(int)type] << line << std::endl` writes `line` and a newline to `ss[0]` for `VERTEX`
and to `ss[1]` for `FRAGMENT`. -/
def step (st : ScanState) (line : Str) : ScanState :=
  if (find line "#shader".toList).isSome then
    if (find line "vertex".toList).isSome then
      { st with type := ShaderType.VERTEX }
    else if (find line "fragment".toList).isSome then
      { st with type := ShaderType.FRAGMENT }
    else st
  else
    match st.type with
    | ShaderType.NONE => st
    | ShaderType.VERTEX => { st with ss0 := st.ss0 ++ line ++ ['\n'] }
    | ShaderType.FRAGMENT => { st with ss1 := st.ss1 ++ line ++ ['\n'] }

/-- Model of one call `getline(stream, line)` on the unread characters `stream`:
`none` when the call fails (nothing left to read), otherwise the line read (up to, and
without, the next newline) and the characters left unread (after that newline). -/
def getline (stream : Str) : Option (Str × Str) :=
  match stream with
  | [] => none
  | _ :: _ =>
    some (stream.takeWhile (fun c => c != '\n'), (stream.dropWhile (fun c => c != '\n')).tail)

/-- The loop `while (getline(stream, line)) { ... }` of `ParseShader`, with a bound on the number
of iterations (every successful `getline` consumes at least one character, so the number of
unread characters is enough). -/
def ParseShaderLoop : Nat → Str → ScanState → ScanState
  | 0, _, st => st
  | fuel + 1, stream, st =>
    match getline stream with
    | none => st
    | some (line, rest) => ParseShaderLoop fuel rest (step st line)

/-- The function `ParseShader(filepath)`. `fs` is the file system: `fs filepath = none` when
the file cannot be opened (then `{ "", "" }` is returned, line 31), otherwise its content.
The message written to `std::cerr` is not part of the returned value. -/
def ParseShader (fs : Str → Option Str) (filepath : Str) : ShaderProgramSource :=
  match fs filepath with
  | none => ⟨[], []⟩
  | some content =>
    let st := ParseShaderLoop content.length content ScanState.init
    ⟨st.ss0, st.ss1⟩

/-- The lines that the successive calls of `getline` deliver on a stream, with the same bound
on the number of calls as `ParseShaderLoop`. -/
def getlinesFuel : Nat → Str → List Str
  | 0, _ => []
  | fuel + 1, stream =>
    match getline stream with
    | none => []
    | some (line, rest) => line :: getlinesFuel fuel rest

/-- The lines of a file content, as `getline` delivers them. -/
def getlines (content : Str) : List Str := getlinesFuel content.length content

/-- The loop of `ParseShader` run over the lines that `getline` delivers, given as a list. -/
def scan (lines : List Str) (st : ScanState) : ScanState := lines.foldl step st

/-- The function `ParseShader` on an opened input given as the list of its lines: the loop body
`step` on every line in order from the initial state, then `{ ss[0].str(), ss[1].str() }`. -/
def ParseShaderLines (lines : List Str) : ShaderProgramSource :=
  ⟨(scan lines ScanState.init).ss0, (scan lines ScanState.init).ss1⟩

/-- A text file made of the given lines, each ended by a newline. -/
def unlines : List Str → Str
  | [] => []
  | l :: ls => l ++ ['\n'] ++ unlines ls

/-! ### Specification-side definitions for the splitter -/

/-- The active section once the lines `before` have been read: the value of the variable
`type` at that point of the loop. -/
def activeSection (before : List Str) : ShaderType := (scan before ScanState.init).type

/-- The lines of `todo`, in order, that do not contain `#shader` and are read while the
active section is `want`; `before` are the lines read before `todo`. -/
def sectionLinesFrom (want : ShaderType) : List Str → List Str → List Str
  | _, [] => []
  | before, l :: ls =>
    (if (find l "#shader".toList).isNone ∧ activeSection before = want then [l] else [])
      ++ sectionLinesFrom want (before ++ [l]) ls

/-- The lines of an input that do not contain `#shader` and are read while the active
section is `want`. -/
def sectionLines (want : ShaderType) (lines : List Str) : List Str :=
  sectionLinesFrom want [] lines

/-- The loop of `ParseShader` entered with active section `t` and empty streams, run over
`lines`: what a tail of the input contributes to the two bodies. -/
def ParseShaderFrom (t : ShaderType) (lines : List Str) : ShaderProgramSource :=
  ⟨(scan lines ⟨t, [], []⟩).ss0, (scan lines ⟨t, [], []⟩).ss1⟩

/-- The text made of the line `#shader vertex` followed by the vertex body and the line
`#shader fragment` followed by the fragment body. -/
def rewrapVertexFirst (r : ShaderProgramSource) : Str :=
  "#shader vertex\n".toList ++ r.VertexSoucer ++ "#shader fragment\n".toList ++ r.FragmentSource

/-- The same two wrapped sections in the other order. -/
def rewrapFragmentFirst (r : ShaderProgramSource) : Str :=
  "#shader fragment\n".toList ++ r.FragmentSource ++ "#shader vertex\n".toList ++ r.VertexSoucer

/-! ## `CompilerShader` and `CreateShader` (src/main.cpp, lines 60-117; main.cpp, lines 17-74)

The graphics context is abstract: a `GLDriver` answers every query as a function of the calls
issued so far, so the compile and link statuses are arbitrary. The calls issued and the text
written to `std::cout` / `std::cerr` are recorded, in order, in a trace. -/

/-- The enumerators of the OpenGL headers that the two functions use. -/
inductive GLenum where
  | GL_VERTEX_SHADER
  | GL_FRAGMENT_SHADER
  | GL_COMPILE_STATUS
  | GL_INFO_LOG_LENGTH
  | GL_LINK_STATUS
  deriving DecidableEq

/-- The value `GL_FALSE` of the OpenGL headers. -/
def GL_FALSE : Int := 0

/-- One entry of the trace: a call of the graphics API with its arguments (and the value it
returned or wrote through its out-parameter), or a write to a standard stream. -/
inductive Call where
  | glCreateShader (type : GLenum) (ret : Nat)
  | glShaderSource (shader : Nat) (src : Str)
  | glCompileShader (shader : Nat)
  | glGetShaderiv (shader : Nat) (pname : GLenum) (value : Int)
  | glGetShaderInfoLog (shader : Nat) (bufSize : Int) (message : Str)
  | glDeleteShader (shader : Nat)
  | glCreateProgram (ret : Nat)
  | glAttachShader (program : Nat) (shader : Nat)
  | glLinkProgram (program : Nat)
  | glGetProgramiv (program : Nat) (pname : GLenum) (value : Int)
  | glGetProgramInfoLog (program : Nat) (bufSize : Int) (message : Str)
  | glValidateProgram (program : Nat)
  | cout (text : Str)
  | cerr (text : Str)
  deriving DecidableEq

/-- The abstract graphics context: what each query returns, given the trace so far. -/
structure GLDriver where
  createShader : List Call → GLenum → Nat
  createProgram : List Call → Nat
  getShaderiv : List Call → Nat → GLenum → Int
  getProgramiv : List Call → Nat → GLenum → Int
  getShaderInfoLog : List Call → Nat → Int → Str
  getProgramInfoLog : List Call → Nat → Int → Str

/-- The value that `glGetShaderiv(id, GL_COMPILE_STATUS, &result)` (line 71) stores in `result`
when `CompilerShader(type, source)` is called with trace `tr`. -/
def CompilerShader_result (gl : GLDriver) (type : GLenum) (source : Str) (tr : List Call) : Int :=
  let id := gl.createShader tr type
  gl.getShaderiv
    (tr ++ [Call.glCreateShader type id, Call.glShaderSource id source, Call.glCompileShader id])
    id GLenum.GL_COMPILE_STATUS

/-- The function `CompilerShader(type, source)`: the value returned and the trace after the
call. The buffer `message` is given by the text the driver writes into it. -/
def CompilerShader (gl : GLDriver) (type : GLenum) (source : Str) (tr : List Call) :
    Nat × List Call :=
  let id := gl.createShader tr type
  let tr := tr ++ [Call.glCreateShader type id]
  let tr := tr ++ [Call.glShaderSource id source]
  let tr := tr ++ [Call.glCompileShader id]
  let result := gl.getShaderiv tr id GLenum.GL_COMPILE_STATUS
  let tr := tr ++ [Call.glGetShaderiv id GLenum.GL_COMPILE_STATUS result]
  if result = GL_FALSE then
    let length := gl.getShaderiv tr id GLenum.GL_INFO_LOG_LENGTH
    let tr := tr ++ [Call.glGetShaderiv id GLenum.GL_INFO_LOG_LENGTH length]
    let message := gl.getShaderInfoLog tr id length
    let tr := tr ++ [Call.glGetShaderInfoLog id length message]
    let tr := tr ++ [Call.cout ("Failed to compile ".toList
      ++ (if type = GLenum.GL_VERTEX_SHADER then "vertex".toList else "fragment".toList)
      ++ "shader!".toList ++ ['\n'])]
    let tr := tr ++ [Call.cout (message ++ ['\n'])]
    let tr := tr ++ [Call.glDeleteShader id]
    (0, tr)
  else
    (id, tr)

/-- The function `CreateShader(vertexShader, fragmentShader)`: the value returned and the trace
after the call. -/
def CreateShader (gl : GLDriver) (vertexShader fragmentShader : Str) (tr : List Call) :
    Nat × List Call :=
  let program := gl.createProgram tr
  let tr := tr ++ [Call.glCreateProgram program]
  let (vs, tr) := CompilerShader gl GLenum.GL_VERTEX_SHADER vertexShader tr
  let (fs, tr) := CompilerShader gl GLenum.GL_FRAGMENT_SHADER fragmentShader tr
  let tr := tr ++ [Call.glAttachShader program vs]
  let tr := tr ++ [Call.glAttachShader program fs]
  let tr := tr ++ [Call.glLinkProgram program]
  let result := gl.getProgramiv tr program GLenum.GL_LINK_STATUS
  let tr := tr ++ [Call.glGetProgramiv program GLenum.GL_LINK_STATUS result]
  let tr :=
    if result = 0 then
      let length := gl.getProgramiv tr program GLenum.GL_INFO_LOG_LENGTH
      let tr := tr ++ [Call.glGetProgramiv program GLenum.GL_INFO_LOG_LENGTH length]
      let message := gl.getProgramInfoLog tr program length
      let tr := tr ++ [Call.glGetProgramInfoLog program length message]
      tr ++ [Call.cerr ("ERROR::SHADER::PROGRAM::LINKING_FAILED\n".toList ++ message ++ ['\n'])]
    else tr
  let tr := tr ++ [Call.glValidateProgram program]
  let tr := tr ++ [Call.glDeleteShader vs]
  let tr := tr ++ [Call.glDeleteShader fs]
  (program, tr)

/-- A driver for the examples: handles are numbered by the length of the trace, every status
query answers `GL_FALSE` and every log is empty. -/
def failingDriver : GLDriver where
  createShader := fun tr _ => tr.length + 1
  createProgram := fun tr => tr.length + 1
  getShaderiv := fun _ _ _ => 0
  getProgramiv := fun _ _ _ => 0
  getShaderInfoLog := fun _ _ _ => []
  getProgramInfoLog := fun _ _ _ => []

/-! ## The vertex-buffer upload of the two demos -/

/-- The value of `sizeof(float)`, taken as 4. -/
def sizeof_float : Nat := 4

/-- The array `positions` of the quad demo (src/main.cpp, lines 162-167). -/
def quad_positions : List ℚ := [-0.5, -0.5, 0.5, -0.5, 0.5, 0.5, -0.5, 0.5]

/-- The array `positions` of the triangle demo (main.cpp, lines 119-123). -/
def triangle_positions : List ℚ := [-0.5, -0.5, 0.0, 0.5, 0.5, -0.5]

/-- The value of `sizeof(positions)` for an array of floats. -/
def sizeof_positions (positions : List ℚ) : Nat := positions.length * sizeof_float

/-- The byte count passed to `glBufferData(GL_ARRAY_BUFFER, ...)` in the quad demo
(src/main.cpp, line 185): `6 * 2 * sizeof(float)`. -/
def quad_upload_size : Nat := 6 * 2 * sizeof_float

/-- The byte count passed to `glBufferData(GL_ARRAY_BUFFER, ...)` in the triangle demo
(main.cpp, line 132): `sizeof(positions)`. -/
def triangle_upload_size : Nat := sizeof_positions triangle_positions

/-! ### Lemmas on the loop -/

theorem scan_nil (st : ScanState) : scan [] st = st := rfl

theorem scan_cons (l : Str) (ls : List Str) (st : ScanState) :
    scan (l :: ls) st = scan ls (step st l) := rfl

theorem scan_append (a b : List Str) (st : ScanState) :
    scan (a ++ b) st = scan b (scan a st) := by
  simp [scan, List.foldl_append]

theorem unlines_append (a b : List Str) : unlines (a ++ b) = unlines a ++ unlines b := by
  induction a with
  | nil => rfl
  | cons l ls ih => simp [unlines, ih]

/-- A line without `#shader` read in section `VERTEX` goes to `ss[0]`. -/
theorem step_plain_vertex (a b l : Str) (h : find l "#shader".toList = none) :
    step ⟨ShaderType.VERTEX, a, b⟩ l = ⟨ShaderType.VERTEX, a ++ l ++ ['\n'], b⟩ := by
  simp only [step, h]
  simp

/-- A line without `#shader` read in section `FRAGMENT` goes to `ss[1]`. -/
theorem step_plain_fragment (a b l : Str) (h : find l "#shader".toList = none) :
    step ⟨ShaderType.FRAGMENT, a, b⟩ l = ⟨ShaderType.FRAGMENT, a, b ++ l ++ ['\n']⟩ := by
  simp only [step, h]
  simp

/-- A line without `#shader` read before any section is dropped. -/
theorem step_plain_none (a b l : Str) (h : find l "#shader".toList = none) :
    step ⟨ShaderType.NONE, a, b⟩ l = ⟨ShaderType.NONE, a, b⟩ := by
  simp only [step, h]
  simp

theorem scan_plain_vertex (blk : List Str) (h : ∀ l ∈ blk, find l "#shader".toList = none)
    (a b : Str) :
    scan blk ⟨ShaderType.VERTEX, a, b⟩ = ⟨ShaderType.VERTEX, a ++ unlines blk, b⟩ := by
  induction blk generalizing a with
  | nil => simp [scan_nil, unlines]
  | cons l ls ih =>
    rw [scan_cons, step_plain_vertex a b l (h l (List.mem_cons_self _ _)),
      ih (fun x hx => h x (List.mem_cons_of_mem _ hx))]
    simp [unlines]

theorem scan_plain_fragment (blk : List Str) (h : ∀ l ∈ blk, find l "#shader".toList = none)
    (a b : Str) :
    scan blk ⟨ShaderType.FRAGMENT, a, b⟩ = ⟨ShaderType.FRAGMENT, a, b ++ unlines blk⟩ := by
  induction blk generalizing b with
  | nil => simp [scan_nil, unlines]
  | cons l ls ih =>
    rw [scan_cons, step_plain_fragment a b l (h l (List.mem_cons_self _ _)),
      ih (fun x hx => h x (List.mem_cons_of_mem _ hx))]
    simp [unlines]

theorem scan_plain_none (blk : List Str) (h : ∀ l ∈ blk, find l "#shader".toList = none)
    (a b : Str) :
    scan blk ⟨ShaderType.NONE, a, b⟩ = ⟨ShaderType.NONE, a, b⟩ := by
  induction blk with
  | nil => rfl
  | cons l ls ih =>
    rw [scan_cons, step_plain_none a b l (h l (List.mem_cons_self _ _)),
      ih (fun x hx => h x (List.mem_cons_of_mem _ hx))]

/-- The loop only appends: one step from a state with text already in the streams is the
step from empty streams with that text put in front. -/
theorem step_shift (t : ShaderType) (a b l : Str) :
    step ⟨t, a, b⟩ l
      = ⟨(step ⟨t, [], []⟩ l).type, a ++ (step ⟨t, [], []⟩ l).ss0,
          b ++ (step ⟨t, [], []⟩ l).ss1⟩ := by
  unfold step
  cases t <;> simp <;> split_ifs <;> simp

theorem scan_shift (lines : List Str) (t : ShaderType) (a b : Str) :
    scan lines ⟨t, a, b⟩
      = ⟨(scan lines ⟨t, [], []⟩).type, a ++ (scan lines ⟨t, [], []⟩).ss0,
          b ++ (scan lines ⟨t, [], []⟩).ss1⟩ := by
  induction lines generalizing t a b with
  | nil => simp [scan_nil]
  | cons l ls ih =>
    rw [scan_cons, scan_cons, step_shift t a b l, ih,
      ih (step ⟨t, [], []⟩ l).type (step ⟨t, [], []⟩ l).ss0 (step ⟨t, [], []⟩ l).ss1]
    simp

theorem step_ss0 (st : ScanState) (l : Str) :
    (step st l).ss0 = st.ss0 ++ unlines
      (if (find l "#shader".toList).isNone ∧ st.type = ShaderType.VERTEX then [l] else []) := by
  obtain ⟨t, a, b⟩ := st
  unfold step
  cases h : find l "#shader".toList <;> cases t <;> simp [unlines] <;> split_ifs <;> simp

theorem step_ss1 (st : ScanState) (l : Str) :
    (step st l).ss1 = st.ss1 ++ unlines
      (if (find l "#shader".toList).isNone ∧ st.type = ShaderType.FRAGMENT then [l] else []) := by
  obtain ⟨t, a, b⟩ := st
  unfold step
  cases h : find l "#shader".toList <;> cases t <;> simp [unlines] <;> split_ifs <;> simp

/-- The loop over `todo`, entered after `before` has been read, appends to each stream the
selected lines of `todo`. -/
theorem scan_sectionLinesFrom (todo before : List Str) :
    scan todo (scan before ScanState.init)
      = ⟨activeSection (before ++ todo),
          (scan before ScanState.init).ss0
            ++ unlines (sectionLinesFrom ShaderType.VERTEX before todo),
          (scan before ScanState.init).ss1
            ++ unlines (sectionLinesFrom ShaderType.FRAGMENT before todo)⟩ := by
  induction todo generalizing before with
  | nil => simp [scan_nil, sectionLinesFrom, unlines, activeSection]
  | cons l ls ih =>
    have hstep : step (scan before ScanState.init) l = scan (before ++ [l]) ScanState.init := by
      rw [scan_append, scan_cons, scan_nil]
    rw [scan_cons, hstep, ih (before ++ [l])]
    have h0 := step_ss0 (scan before ScanState.init) l
    have h1 := step_ss1 (scan before ScanState.init) l
    rw [hstep] at h0 h1
    rw [h0, h1]
    simp only [sectionLinesFrom, unlines_append, activeSection, List.append_assoc,
      List.singleton_append]

theorem ParseShaderLines_eq_sectionLines (lines : List Str) :
    ParseShaderLines lines
      = ⟨unlines (sectionLines ShaderType.VERTEX lines),
          unlines (sectionLines ShaderType.FRAGMENT lines)⟩ := by
  have h := scan_sectionLinesFrom lines []
  rw [scan_nil] at h
  unfold ParseShaderLines sectionLines
  rw [h]
  simp [ScanState.init]

theorem mem_sectionLinesFrom (want : ShaderType) (todo before : List Str) (l : Str)
    (h : l ∈ sectionLinesFrom want before todo) :
    l ∈ todo ∧ find l "#shader".toList = none := by
  induction todo generalizing before with
  | nil => simp [sectionLinesFrom] at h
  | cons x xs ih =>
    simp only [sectionLinesFrom, List.mem_append] at h
    rcases h with h | h
    · split_ifs at h with hc
      · have hx : l = x := by simpa using h
        subst hx
        exact ⟨List.mem_cons_self _ _, by simpa using hc.1⟩
      · simp at h
    · exact ⟨List.mem_cons_of_mem _ (ih _ h).1, (ih _ h).2⟩

/-! ### Lemmas on `getline` -/

theorem getline_rest_length (c : Char) (cs line rest : Str)
    (h : getline (c :: cs) = some (line, rest)) : rest.length ≤ cs.length := by
  simp only [getline, Option.some.injEq, Prod.mk.injEq] at h
  rw [← h.2, List.length_tail]
  have := (List.dropWhile_suffix (fun c => c != '\n') (l := c :: cs)).length_le
  simp only [List.length_cons] at this
  omega

/-- Any two bounds that are at least the number of unread characters give the same lines. -/
theorem getlinesFuel_stable (n m : Nat) (s : Str) (hn : s.length ≤ n) (hm : s.length ≤ m) :
    getlinesFuel n s = getlinesFuel m s := by
  induction n generalizing m s with
  | zero =>
    have : s = [] := List.length_eq_zero.mp (Nat.le_zero.mp hn)
    subst this
    cases m <;> simp [getlinesFuel, getline]
  | succ n ih =>
    cases s with
    | nil => cases m <;> simp [getlinesFuel, getline]
    | cons c cs =>
      cases m with
      | zero => simp at hm
      | succ m =>
        simp only [getlinesFuel]
        cases hg : getline (c :: cs) with
        | none => rfl
        | some p =>
          obtain ⟨line, rest⟩ := p
          have hr := getline_rest_length c cs line rest hg
          simp only [List.length_cons] at hn hm
          simp only []
          rw [ih m rest (by omega) (by omega)]

theorem getlines_eq_fuel (n : Nat) (s : Str) (hn : s.length ≤ n) :
    getlinesFuel n s = getlines s :=
  getlinesFuel_stable n s.length s hn (Nat.le_refl _)

/-- The loop over the stream is the loop over the lines `getline` delivers. -/
theorem ParseShaderLoop_eq_scan (n : Nat) (s : Str) (st : ScanState) :
    ParseShaderLoop n s st = scan (getlinesFuel n s) st := by
  induction n generalizing s st with
  | zero => rfl
  | succ n ih =>
    simp only [ParseShaderLoop, getlinesFuel]
    cases getline s with
    | none => rfl
    | some p => simp only [scan_cons, ih]

/-- The bound used by `ParseShader` is enough: with any bound that is at least the number of
unread characters the loop ends because `getline` fails, and gives the same state. -/
theorem ParseShaderLoop_fuel (n : Nat) (s : Str) (st : ScanState) (hn : s.length ≤ n) :
    ParseShaderLoop n s st = ParseShaderLoop s.length s st := by
  rw [ParseShaderLoop_eq_scan, ParseShaderLoop_eq_scan,
    getlinesFuel_stable n s.length s hn (Nat.le_refl _)]

/-- On a file that opens, `ParseShader` is the loop over the lines of the file. -/
theorem ParseShader_eq_ParseShaderLines (fs : Str → Option Str) (filepath content : Str)
    (h : fs filepath = some content) :
    ParseShader fs filepath = ParseShaderLines (getlines content) := by
  simp only [ParseShader, h, ParseShaderLines, getlines, ParseShaderLoop_eq_scan]

theorem takeWhile_line (l rest : Str) (hl : '\n' ∉ l) :
    (l ++ '\n' :: rest).takeWhile (fun c => c != '\n') = l := by
  induction l with
  | nil => simp
  | cons c cs ih =>
    have hb : (c != '\n') = true := by
      have hc : c ≠ '\n' := fun h => hl (by simp [h])
      simpa using hc
    have hcs : '\n' ∉ cs := fun h => hl (List.mem_cons_of_mem _ h)
    rw [List.cons_append, List.takeWhile_cons]
    simp only [hb, if_true, ih hcs]

theorem dropWhile_line (l rest : Str) (hl : '\n' ∉ l) :
    (l ++ '\n' :: rest).dropWhile (fun c => c != '\n') = '\n' :: rest := by
  induction l with
  | nil => simp
  | cons c cs ih =>
    have hb : (c != '\n') = true := by
      have hc : c ≠ '\n' := fun h => hl (by simp [h])
      simpa using hc
    have hcs : '\n' ∉ cs := fun h => hl (List.mem_cons_of_mem _ h)
    rw [List.cons_append, List.dropWhile_cons]
    simp only [hb, if_true, ih hcs]

/-- One `getline` on a stream that starts with a newline-free line ended by a newline. -/
theorem getline_line (l rest : Str) (hl : '\n' ∉ l) :
    getline (l ++ '\n' :: rest) = some (l, rest) := by
  cases hs : l ++ '\n' :: rest with
  | nil => simp at hs
  | cons c cs =>
    simp only [getline]
    rw [← hs, takeWhile_line l rest hl, dropWhile_line l rest hl]
    rfl

/-- The lines of a text that starts with newline-free lines, each ended by a newline. -/
theorem getlines_unlines_append (ls : List Str) (hls : ∀ l ∈ ls, '\n' ∉ l) (s : Str) :
    getlines (unlines ls ++ s) = ls ++ getlines s := by
  induction ls with
  | nil => simp [unlines]
  | cons l ls ih =>
    have hl := hls l (List.mem_cons_self _ _)
    have htxt : unlines (l :: ls) ++ s = l ++ '\n' :: (unlines ls ++ s) := by
      simp [unlines]
    rw [htxt]
    have hlen : (l ++ '\n' :: (unlines ls ++ s)).length
        = (l.length + (unlines ls ++ s).length) + 1 := by
      simp only [List.length_append, List.length_cons]
      omega
    unfold getlines
    rw [hlen]
    simp only [getlinesFuel, getline_line l _ hl]
    rw [getlines_eq_fuel _ _ (by omega), ih (fun x hx => hls x (List.mem_cons_of_mem _ hx))]
    rfl

theorem getlines_unlines (ls : List Str) (hls : ∀ l ∈ ls, '\n' ∉ l) :
    getlines (unlines ls) = ls := by
  have h := getlines_unlines_append ls hls []
  simpa [getlines, getlinesFuel] using h

/-- On a file made of newline-free lines, each ended by a newline, `ParseShader` is the loop
over those lines. -/
theorem ParseShader_of_unlines (fs : Str → Option Str) (filepath : Str) (lines : List Str)
    (hnl : ∀ l ∈ lines, '\n' ∉ l) (h : fs filepath = some (unlines lines)) :
    ParseShader fs filepath = ParseShaderLines lines := by
  rw [ParseShader_eq_ParseShaderLines fs filepath _ h, getlines_unlines lines hnl]

theorem getline_no_newline (s line rest : Str) (h : getline s = some (line, rest)) :
    '\n' ∉ line := by
  cases s with
  | nil => simp [getline] at h
  | cons c cs =>
    simp only [getline, Option.some.injEq, Prod.mk.injEq] at h
    rw [← h.1]
    intro hmem
    have := List.mem_takeWhile_imp hmem
    simp at this

/-- No line delivered by `getline` contains a newline. -/
theorem getlinesFuel_no_newline (n : Nat) (s : Str) : ∀ l ∈ getlinesFuel n s, '\n' ∉ l := by
  induction n generalizing s with
  | zero => simp [getlinesFuel]
  | succ n ih =>
    simp only [getlinesFuel]
    cases hg : getline s with
    | none => simp
    | some p =>
      obtain ⟨line, rest⟩ := p
      intro l hl
      simp only [List.mem_cons] at hl
      rcases hl with hl | hl
      · rw [hl]; exact getline_no_newline s line rest hg
      · exact ih rest l hl

theorem getlines_no_newline (s : Str) : ∀ l ∈ getlines s, '\n' ∉ l :=
  getlinesFuel_no_newline _ s

/-! ### Marker lines -/

theorem step_marker_vertex (st : ScanState) (m : Str) (hm : find m "#shader".toList ≠ none)
    (hv : find m "vertex".toList ≠ none) :
    step st m = ⟨ShaderType.VERTEX, st.ss0, st.ss1⟩ := by
  have hm1 : (find m "#shader".toList).isSome = true := Option.isSome_iff_ne_none.mpr hm
  have hv1 : (find m "vertex".toList).isSome = true := Option.isSome_iff_ne_none.mpr hv
  simp only [step, hm1, hv1, if_true]

theorem step_marker_fragment (st : ScanState) (m : Str) (hm : find m "#shader".toList ≠ none)
    (hv : find m "vertex".toList = none) (hf : find m "fragment".toList ≠ none) :
    step st m = ⟨ShaderType.FRAGMENT, st.ss0, st.ss1⟩ := by
  have hm1 : (find m "#shader".toList).isSome = true := Option.isSome_iff_ne_none.mpr hm
  have hf1 : (find m "fragment".toList).isSome = true := Option.isSome_iff_ne_none.mpr hf
  simp only [step, hm1, hv, hf1, if_true]
  simp

theorem step_marker_other (st : ScanState) (m : Str) (hm : find m "#shader".toList ≠ none)
    (hv : find m "vertex".toList = none) (hf : find m "fragment".toList = none) :
    step st m = st := by
  have hm1 : (find m "#shader".toList).isSome = true := Option.isSome_iff_ne_none.mpr hm
  simp only [step, hm1, hv, hf, if_true]
  simp

/-- The bodies after `pre ++ tail` are the bodies after `pre` followed by what `tail`
contributes when the loop enters it with the section active after `pre`. -/
theorem ParseShaderLines_append (pre tail : List Str) :
    ParseShaderLines (pre ++ tail)
      = ⟨(ParseShaderLines pre).VertexSoucer
            ++ (ParseShaderFrom (activeSection pre) tail).VertexSoucer,
          (ParseShaderLines pre).FragmentSource
            ++ (ParseShaderFrom (activeSection pre) tail).FragmentSource⟩ := by
  have h : scan pre ScanState.init
      = ⟨activeSection pre, (scan pre ScanState.init).ss0, (scan pre ScanState.init).ss1⟩ := rfl
  simp only [ParseShaderLines, ParseShaderFrom, scan_append]
  rw [h, scan_shift]

/-- The two bodies that `ParseShader` returns are made of newline-free lines without
`#shader`, each ended by a newline. -/
theorem ParseShader_bodies_lines (fs : Str → Option Str) (filepath : Str) :
    ∃ vl fl : List Str,
      ParseShader fs filepath = ⟨unlines vl, unlines fl⟩
        ∧ (∀ l ∈ vl, '\n' ∉ l) ∧ (∀ l ∈ vl, find l "#shader".toList = none)
        ∧ (∀ l ∈ fl, '\n' ∉ l) ∧ (∀ l ∈ fl, find l "#shader".toList = none) := by
  cases h : fs filepath with
  | none =>
    refine ⟨[], [], ?_, ?_, ?_, ?_, ?_⟩ <;> simp [ParseShader, h, unlines]
  | some content =>
    refine ⟨sectionLines ShaderType.VERTEX (getlines content),
      sectionLines ShaderType.FRAGMENT (getlines content), ?_, ?_, ?_, ?_, ?_⟩
    · rw [ParseShader_eq_ParseShaderLines fs filepath content h,
        ParseShaderLines_eq_sectionLines]
    · intro l hl
      exact getlines_no_newline content l (mem_sectionLinesFrom _ _ _ l hl).1
    · intro l hl
      exact (mem_sectionLinesFrom _ _ _ l hl).2
    · intro l hl
      exact getlines_no_newline content l (mem_sectionLinesFrom _ _ _ l hl).1
    · intro l hl
      exact (mem_sectionLinesFrom _ _ _ l hl).2

/-- A vertex block followed by a fragment block. -/
theorem ParseShaderLines_vertex_fragment (vl fl : List Str)
    (hv : ∀ l ∈ vl, find l "#shader".toList = none)
    (hf : ∀ l ∈ fl, find l "#shader".toList = none) :
    ParseShaderLines ("#shader vertex".toList :: vl ++ "#shader fragment".toList :: fl)
      = ⟨unlines vl, unlines fl⟩ := by
  have e1 : step ScanState.init "#shader vertex".toList = ⟨ShaderType.VERTEX, [], []⟩ := by
    decide
  have e2 : ∀ a b : Str, step ⟨ShaderType.VERTEX, a, b⟩ "#shader fragment".toList
      = ⟨ShaderType.FRAGMENT, a, b⟩ := fun a b =>
    step_marker_fragment _ _ (by decide) (by decide) (by decide)
  simp only [ParseShaderLines, List.cons_append, scan_cons, scan_append, e1,
    scan_plain_vertex vl hv, e2, scan_plain_fragment fl hf, List.nil_append]

/-- A fragment block followed by a vertex block. -/
theorem ParseShaderLines_fragment_vertex (vl fl : List Str)
    (hv : ∀ l ∈ vl, find l "#shader".toList = none)
    (hf : ∀ l ∈ fl, find l "#shader".toList = none) :
    ParseShaderLines ("#shader fragment".toList :: fl ++ "#shader vertex".toList :: vl)
      = ⟨unlines vl, unlines fl⟩ := by
  have e1 : step ScanState.init "#shader fragment".toList = ⟨ShaderType.FRAGMENT, [], []⟩ := by
    decide
  have e2 : ∀ a b : Str, step ⟨ShaderType.FRAGMENT, a, b⟩ "#shader vertex".toList
      = ⟨ShaderType.VERTEX, a, b⟩ := fun a b =>
    step_marker_vertex _ _ (by decide) (by decide)
  simp only [ParseShaderLines, List.cons_append, scan_cons, scan_append, e1,
    scan_plain_fragment fl hf, e2, scan_plain_vertex vl hv, List.nil_append]

/-- An input none of whose lines contains `#shader` gives two empty bodies. -/
theorem ParseShaderLines_of_no_marker (pre : List Str)
    (hpre : ∀ l ∈ pre, find l "#shader".toList = none) :
    ParseShaderLines pre = ⟨[], []⟩ := by
  simp only [ParseShaderLines, ScanState.init, scan_plain_none pre hpre [] []]

/-! ## The claims on `ParseShader` -/

/-- C1: for every input, given as the list of its lines or as the content of a file that
opens, the vertex body returned by `ParseShader` is exactly the concatenation, in source order,
of `line ++ "\n"` over the lines that do not contain `#shader` and are read while the active
section is vertex, and the fragment body is the same concatenation over the lines read while
the active section is fragment. The lines `#shader vertex`, `A`, `#shader fragment`, `B`, `C`
give the vertex body `A\n` and the fragment body `B\nC\n`. -/
theorem ParseShader_bodies_are_section_lines :
    (∀ lines : List Str,
      ParseShaderLines lines
        = ⟨unlines (sectionLines ShaderType.VERTEX lines),
            unlines (sectionLines ShaderType.FRAGMENT lines)⟩)
    ∧ (∀ content filepath : Str,
      ParseShader (fun _ => some content) filepath
        = ⟨unlines (sectionLines ShaderType.VERTEX (getlines content)),
            unlines (sectionLines ShaderType.FRAGMENT (getlines content))⟩)
    ∧ ParseShaderLines ["#shader vertex".toList, "A".toList, "#shader fragment".toList,
          "B".toList, "C".toList]
        = ⟨"A\n".toList, "B\nC\n".toList⟩ := by
  refine ⟨ParseShaderLines_eq_sectionLines, ?_, by decide⟩
  intro content filepath
  rw [ParseShader_eq_ParseShaderLines _ filepath content rfl, ParseShaderLines_eq_sectionLines]

/-- C2 (as the code has it): for a line that contains `#shader`, the active section after it
is vertex when the line contains `vertex`, and fragment when the line contains `fragment`
and does not contain `vertex`; the lines without `#shader` that follow it (`blk`) are appended
to the body of that section, after what the lines before it (`pre`) put there, and the other
body receives nothing from them; `rest` stands for the next marker line and what follows it,
or for the end of the input. -/
theorem marker_line_selects_section (m : Str) (hm : find m "#shader".toList ≠ none)
    (pre blk rest : List Str) (hblk : ∀ l ∈ blk, find l "#shader".toList = none) :
    (find m "vertex".toList ≠ none →
      activeSection (pre ++ [m]) = ShaderType.VERTEX
      ∧ ParseShaderLines (pre ++ m :: blk ++ rest)
          = ⟨(ParseShaderLines pre).VertexSoucer ++ unlines blk
                ++ (ParseShaderFrom ShaderType.VERTEX rest).VertexSoucer,
              (ParseShaderLines pre).FragmentSource
                ++ (ParseShaderFrom ShaderType.VERTEX rest).FragmentSource⟩)
    ∧ (find m "vertex".toList = none → find m "fragment".toList ≠ none →
      activeSection (pre ++ [m]) = ShaderType.FRAGMENT
      ∧ ParseShaderLines (pre ++ m :: blk ++ rest)
          = ⟨(ParseShaderLines pre).VertexSoucer
                ++ (ParseShaderFrom ShaderType.FRAGMENT rest).VertexSoucer,
              (ParseShaderLines pre).FragmentSource ++ unlines blk
                ++ (ParseShaderFrom ShaderType.FRAGMENT rest).FragmentSource⟩) := by
  have hsplit : pre ++ m :: blk ++ rest = pre ++ ([m] ++ (blk ++ rest)) := by simp
  constructor
  · intro hv
    have hstep := step_marker_vertex (scan pre ScanState.init) m hm hv
    refine ⟨?_, ?_⟩
    · simp only [activeSection, scan_append, scan_cons, scan_nil, hstep]
    · rw [hsplit]
      simp only [ParseShaderLines, ParseShaderFrom, scan_append, scan_cons, scan_nil, hstep,
        scan_plain_vertex blk hblk]
      rw [scan_shift]
  · intro hv hf
    have hstep := step_marker_fragment (scan pre ScanState.init) m hm hv hf
    refine ⟨?_, ?_⟩
    · simp only [activeSection, scan_append, scan_cons, scan_nil, hstep]
    · rw [hsplit]
      simp only [ParseShaderLines, ParseShaderFrom, scan_append, scan_cons, scan_nil, hstep,
        scan_plain_fragment blk hblk]
      rw [scan_shift]

/-- C2, witness: the marker `#shader fragment` after a vertex block. -/
theorem marker_line_selects_section_witness :
    find "#shader fragment".toList "#shader".toList ≠ none
    ∧ find "#shader fragment".toList "vertex".toList = none
    ∧ find "#shader fragment".toList "fragment".toList ≠ none
    ∧ activeSection (["#shader vertex".toList, "A".toList] ++ ["#shader fragment".toList])
        = ShaderType.FRAGMENT
    ∧ ParseShaderLines (["#shader vertex".toList, "A".toList]
          ++ "#shader fragment".toList :: ["B".toList, "C".toList]
          ++ ["#shader vertex".toList, "D".toList])
        = ⟨(ParseShaderLines ["#shader vertex".toList, "A".toList]).VertexSoucer
              ++ (ParseShaderFrom ShaderType.FRAGMENT
                    ["#shader vertex".toList, "D".toList]).VertexSoucer,
            (ParseShaderLines ["#shader vertex".toList, "A".toList]).FragmentSource
              ++ unlines ["B".toList, "C".toList]
              ++ (ParseShaderFrom ShaderType.FRAGMENT
                    ["#shader vertex".toList, "D".toList]).FragmentSource⟩ :=
  ⟨by decide, by decide, by decide,
    (marker_line_selects_section "#shader fragment".toList (by decide)
      ["#shader vertex".toList, "A".toList] ["B".toList, "C".toList]
      ["#shader vertex".toList, "D".toList] (by decide)).2 (by decide) (by decide)⟩

/-- C2, counterexample: the line `#shader vertex fragment` contains `#shader` and contains
`fragment`, yet the active section after it is vertex, and the line `A` that follows it is
appended to the vertex body and not to the fragment body. -/
theorem marker_line_with_both_names_is_vertex :
    find "#shader vertex fragment".toList "#shader".toList ≠ none
    ∧ find "#shader vertex fragment".toList "fragment".toList ≠ none
    ∧ activeSection ["#shader vertex fragment".toList] = ShaderType.VERTEX
    ∧ activeSection ["#shader vertex fragment".toList] ≠ ShaderType.FRAGMENT
    ∧ ParseShaderLines ["#shader vertex fragment".toList, "A".toList] = ⟨"A\n".toList, []⟩ := by
  decide

/-- C3: lines read before the first marker are discarded. When no line of `pre` contains
`#shader`, `ParseShader` on `pre ++ rest` returns the same two bodies as on `rest`, and on
`pre` alone it returns two empty bodies. The lines `X`, `#shader vertex`, `Y` give the vertex
body `Y\n` and an empty fragment body. -/
theorem leading_lines_discarded (pre rest : List Str)
    (hpre : ∀ l ∈ pre, find l "#shader".toList = none) :
    ParseShaderLines (pre ++ rest) = ParseShaderLines rest
    ∧ ParseShaderLines pre = ⟨[], []⟩
    ∧ ParseShaderLines ["X".toList, "#shader vertex".toList, "Y".toList]
        = ⟨"Y\n".toList, []⟩ := by
  have h := scan_plain_none pre hpre [] []
  refine ⟨?_, ?_, by decide⟩
  · simp only [ParseShaderLines, scan_append, ScanState.init, h]
  · simp only [ParseShaderLines, ScanState.init, h]

/-- C3, witness: the leading line `X`. -/
theorem leading_lines_discarded_witness :
    (∀ l ∈ ["X".toList], find l "#shader".toList = none)
    ∧ ParseShaderLines (["X".toList] ++ ["#shader vertex".toList, "Y".toList])
        = ParseShaderLines ["#shader vertex".toList, "Y".toList]
    ∧ ParseShaderLines ["X".toList] = ⟨[], []⟩
    ∧ ParseShaderLines ["X".toList, "#shader vertex".toList, "Y".toList]
        = ⟨"Y\n".toList, []⟩ :=
  ⟨by decide,
    leading_lines_discarded ["X".toList] ["#shader vertex".toList, "Y".toList] (by decide)⟩

/-- C4: splitting is idempotent under re-wrapping. For every input (in particular every
well-formed input with one `#shader vertex` block and one `#shader fragment` block, in either
order), with `r` the record `ParseShader` returns for it: `ParseShader` on the text made of
the line `#shader vertex` followed by the vertex body of `r` and the line `#shader fragment`
followed by the fragment body of `r`, the two wrapped sections in either order, returns `r`
again. -/
theorem resplit_of_rewrapped_bodies (fs : Str → Option Str) (filepath : Str)
    (fs2 : Str → Option Str) (filepath2 : Str)
    (h2 : fs2 filepath2 = some (rewrapVertexFirst (ParseShader fs filepath))
      ∨ fs2 filepath2 = some (rewrapFragmentFirst (ParseShader fs filepath))) :
    ParseShader fs2 filepath2 = ParseShader fs filepath := by
  obtain ⟨vl, fl, hr, hvn, hvm, hfn, hfm⟩ := ParseShader_bodies_lines fs filepath
  rw [hr] at h2 ⊢
  rcases h2 with h2 | h2
  · have htxt : rewrapVertexFirst ⟨unlines vl, unlines fl⟩
        = unlines ("#shader vertex".toList :: vl ++ "#shader fragment".toList :: fl) ++ [] := by
      simp [rewrapVertexFirst, unlines_append, unlines]
    have hnl : ∀ l ∈ "#shader vertex".toList :: vl ++ "#shader fragment".toList :: fl,
        '\n' ∉ l := by
      intro l hl
      simp only [List.cons_append, List.mem_cons, List.mem_append] at hl
      rcases hl with hl | hl | hl | hl
      · rw [hl]; decide
      · exact hvn l hl
      · rw [hl]; decide
      · exact hfn l hl
    rw [ParseShader_eq_ParseShaderLines fs2 filepath2 _ h2, htxt,
      getlines_unlines_append _ hnl, ParseShaderLines_append]
    rw [ParseShaderLines_vertex_fragment vl fl hvm hfm]
    simp [getlines, getlinesFuel, ParseShaderFrom, scan_nil]
  · have htxt : rewrapFragmentFirst ⟨unlines vl, unlines fl⟩
        = unlines ("#shader fragment".toList :: fl ++ "#shader vertex".toList :: vl) ++ [] := by
      simp [rewrapFragmentFirst, unlines_append, unlines]
    have hnl : ∀ l ∈ "#shader fragment".toList :: fl ++ "#shader vertex".toList :: vl,
        '\n' ∉ l := by
      intro l hl
      simp only [List.cons_append, List.mem_cons, List.mem_append] at hl
      rcases hl with hl | hl | hl | hl
      · rw [hl]; decide
      · exact hfn l hl
      · rw [hl]; decide
      · exact hvn l hl
    rw [ParseShader_eq_ParseShaderLines fs2 filepath2 _ h2, htxt,
      getlines_unlines_append _ hnl, ParseShaderLines_append]
    rw [ParseShaderLines_fragment_vertex vl fl hvm hfm]
    simp [getlines, getlinesFuel, ParseShaderFrom, scan_nil]

/-- C4, witness: a two-section file, fragment block first, re-wrapped vertex block first. -/
theorem resplit_of_rewrapped_bodies_witness :
    ParseShader (fun _ => some "#shader fragment\nB\nC\n#shader vertex\nA\n".toList) []
        = ⟨"A\n".toList, "B\nC\n".toList⟩
    ∧ rewrapVertexFirst
          (ParseShader (fun _ => some "#shader fragment\nB\nC\n#shader vertex\nA\n".toList) [])
        = "#shader vertex\nA\n#shader fragment\nB\nC\n".toList
    ∧ ParseShader (fun _ => some "#shader vertex\nA\n#shader fragment\nB\nC\n".toList) []
        = ParseShader
            (fun _ => some "#shader fragment\nB\nC\n#shader vertex\nA\n".toList) [] :=
  ⟨by decide, by decide,
    resplit_of_rewrapped_bodies
      (fun _ => some "#shader fragment\nB\nC\n#shader vertex\nA\n".toList) []
      (fun _ => some "#shader vertex\nA\n#shader fragment\nB\nC\n".toList) []
      (Or.inl (by decide))⟩

/-- C5: a section that appears more than once accumulates. With no line of the blocks `B1`,
`B2`, `B3` containing `#shader`: for the input `#shader vertex`, `B1`, `#shader fragment`, `B2`,
`#shader vertex`, `B3` the vertex body is the lines of `B1` followed by the lines of `B3`, each
with a trailing newline and in source order, and the fragment body is the lines of `B2`; with
the two labels exchanged (`#shader fragment`, `B1`, `#shader vertex`, `B2`, `#shader fragment`,
`B3`) the fragment body is the lines of `B1` followed by those of `B3` and the vertex body is
the lines of `B2`. -/
theorem repeated_section_accumulates (B1 B2 B3 : List Str)
    (h1 : ∀ l ∈ B1, find l "#shader".toList = none)
    (h2 : ∀ l ∈ B2, find l "#shader".toList = none)
    (h3 : ∀ l ∈ B3, find l "#shader".toList = none) :
    ParseShaderLines ("#shader vertex".toList :: B1 ++ "#shader fragment".toList :: B2
        ++ "#shader vertex".toList :: B3)
      = ⟨unlines (B1 ++ B3), unlines B2⟩
    ∧ ParseShaderLines ("#shader fragment".toList :: B1 ++ "#shader vertex".toList :: B2
        ++ "#shader fragment".toList :: B3)
      = ⟨unlines B2, unlines (B1 ++ B3)⟩ := by
  have ev : ∀ st : ScanState, step st "#shader vertex".toList
      = ⟨ShaderType.VERTEX, st.ss0, st.ss1⟩ := fun st =>
    step_marker_vertex st _ (by decide) (by decide)
  have ef : ∀ st : ScanState, step st "#shader fragment".toList
      = ⟨ShaderType.FRAGMENT, st.ss0, st.ss1⟩ := fun st =>
    step_marker_fragment st _ (by decide) (by decide) (by decide)
  constructor
  · simp only [ParseShaderLines, List.cons_append, List.append_assoc, scan_cons, scan_append,
      ev, ef, scan_plain_vertex B1 h1, scan_plain_fragment B2 h2, scan_plain_vertex B3 h3,
      ScanState.init, List.nil_append, unlines_append]
  · simp only [ParseShaderLines, List.cons_append, List.append_assoc, scan_cons, scan_append,
      ev, ef, scan_plain_fragment B1 h1, scan_plain_vertex B2 h2, scan_plain_fragment B3 h3,
      ScanState.init, List.nil_append, unlines_append]

/-- C5, witness: two vertex blocks around a fragment block. -/
theorem repeated_section_accumulates_witness :
    ParseShaderLines ("#shader vertex".toList :: ["A".toList] ++ "#shader fragment".toList
        :: ["B".toList, "C".toList] ++ "#shader vertex".toList :: ["D".toList])
      = ⟨unlines (["A".toList] ++ ["D".toList]), unlines ["B".toList, "C".toList]⟩
    ∧ ParseShaderLines ("#shader fragment".toList :: ["A".toList] ++ "#shader vertex".toList
        :: ["B".toList, "C".toList] ++ "#shader fragment".toList :: ["D".toList])
      = ⟨unlines ["B".toList, "C".toList], unlines (["A".toList] ++ ["D".toList])⟩ :=
  repeated_section_accumulates ["A".toList] ["B".toList, "C".toList] ["D".toList]
    (by decide) (by decide) (by decide)

/-- C6: a marker line is never copied into either body. For every path, whether the file
opens or not, no line of the vertex body and no line of the fragment body returned by
`ParseShader` contains `#shader`. -/
theorem no_marker_in_bodies (fs : Str → Option Str) (filepath : Str) :
    (∀ l ∈ getlines (ParseShader fs filepath).VertexSoucer, find l "#shader".toList = none)
    ∧ (∀ l ∈ getlines (ParseShader fs filepath).FragmentSource,
        find l "#shader".toList = none) := by
  obtain ⟨vl, fl, hr, hvn, hvm, hfn, hfm⟩ := ParseShader_bodies_lines fs filepath
  rw [hr]
  simp only [getlines_unlines vl hvn, getlines_unlines fl hfn]
  exact ⟨hvm, hfm⟩

/-- C6, witness: the body lines of a two-section file with an unnamed marker line. -/
theorem no_marker_in_bodies_witness :
    "A".toList ∈ getlines (ParseShader
        (fun _ => some "#shader vertex\nA\n#shader\n#shader fragment\nB\n".toList)
        []).VertexSoucer
    ∧ find "A".toList "#shader".toList = none :=
  ⟨by decide,
    (no_marker_in_bodies
      (fun _ => some "#shader vertex\nA\n#shader\n#shader fragment\nB\n".toList) []).1
      "A".toList (by decide)⟩

/-- C7: when the shader file cannot be opened, `ParseShader` returns the record whose two
bodies are empty, whatever the path; that record is the very one returned for an empty file
and for any file none of whose lines contains `#shader`. -/
theorem unopened_file_gives_empty_bodies (fs : Str → Option Str) (filepath : Str)
    (h : fs filepath = none) :
    ParseShader fs filepath = ⟨[], []⟩
    ∧ (∀ filepath2 : Str, ParseShader (fun _ => some []) filepath2 = ParseShader fs filepath)
    ∧ (∀ content filepath2 : Str, (∀ l ∈ getlines content, find l "#shader".toList = none) →
        ParseShader (fun _ => some content) filepath2 = ParseShader fs filepath) := by
  have h0 : ParseShader fs filepath = ⟨[], []⟩ := by simp only [ParseShader, h]
  refine ⟨h0, ?_, ?_⟩
  · intro filepath2
    rw [h0]
    rfl
  · intro content filepath2 hc
    rw [h0, ParseShader_eq_ParseShaderLines _ filepath2 content rfl]
    have := (ParseShaderLines_of_no_marker (getlines content) hc)
    exact this

/-- C7, witness: a file system with no file at all. -/
theorem unopened_file_gives_empty_bodies_witness :
    ParseShader (fun _ => none) "resource/shaders/Basic.shader".toList = ⟨[], []⟩
    ∧ (∀ filepath2 : Str, ParseShader (fun _ => some []) filepath2
        = ParseShader (fun _ => none) "resource/shaders/Basic.shader".toList)
    ∧ (∀ content filepath2 : Str, (∀ l ∈ getlines content, find l "#shader".toList = none) →
        ParseShader (fun _ => some content) filepath2
          = ParseShader (fun _ => none) "resource/shaders/Basic.shader".toList) :=
  unopened_file_gives_empty_bodies (fun _ => none) "resource/shaders/Basic.shader".toList rfl

/-- C9: a line that contains `#shader` but neither `vertex` nor `fragment` leaves the active
section unchanged and is itself dropped: deleting it from the input changes neither body. -/
theorem unnamed_marker_line_is_inert (pre post : List Str) (m : Str)
    (hm : find m "#shader".toList ≠ none) (hv : find m "vertex".toList = none)
    (hf : find m "fragment".toList = none) :
    activeSection (pre ++ [m]) = activeSection pre
    ∧ ParseShaderLines (pre ++ [m]) = ParseShaderLines pre
    ∧ ParseShaderLines (pre ++ m :: post) = ParseShaderLines (pre ++ post) := by
  have hstep := step_marker_other (scan pre ScanState.init) m hm hv hf
  refine ⟨?_, ?_, ?_⟩
  · simp only [activeSection, scan_append, scan_cons, scan_nil, hstep]
  · simp only [ParseShaderLines, scan_append, scan_cons, scan_nil, hstep]
  · simp only [ParseShaderLines, scan_append, scan_cons, hstep]

/-- C9, witness: the line `#shader geometry` inside a vertex block. -/
theorem unnamed_marker_line_is_inert_witness :
    activeSection (["#shader vertex".toList, "A".toList] ++ ["#shader geometry".toList])
        = activeSection ["#shader vertex".toList, "A".toList]
    ∧ ParseShaderLines (["#shader vertex".toList, "A".toList] ++ ["#shader geometry".toList])
        = ParseShaderLines ["#shader vertex".toList, "A".toList]
    ∧ ParseShaderLines (["#shader vertex".toList, "A".toList]
          ++ "#shader geometry".toList :: ["B".toList])
        = ParseShaderLines (["#shader vertex".toList, "A".toList] ++ ["B".toList]) :=
  unnamed_marker_line_is_inert ["#shader vertex".toList, "A".toList] ["B".toList]
    "#shader geometry".toList (by decide) (by decide) (by decide)

/-! ## The claims on the shader build sequence and on the buffer upload -/

/-- Whatever the compile status, `CompilerShader` creates a shader of the given type, hands it
the source and compiles it. -/
theorem CompilerShader_calls (gl : GLDriver) (type : GLenum) (source : Str) (tr : List Call) :
    ∃ calls : List Call,
      (CompilerShader gl type source tr).2 = tr ++ calls
        ∧ Call.glCreateShader type (gl.createShader tr type) ∈ calls
        ∧ Call.glShaderSource (gl.createShader tr type) source ∈ calls
        ∧ Call.glCompileShader (gl.createShader tr type) ∈ calls := by
  unfold CompilerShader
  simp only []
  split_ifs <;>
    exact ⟨_, by dsimp only; simp only [List.append_assoc]; rfl, by simp, by simp, by simp⟩

/-- Whatever the link status, `CreateShader` returns the program handle it created, and its
trace is the trace of the two `CompilerShader` calls, vertex stage first, after the creation
of the program, followed by further calls. -/
theorem CreateShader_calls (gl : GLDriver) (vertexShader fragmentShader : Str)
    (tr : List Call) :
    (CreateShader gl vertexShader fragmentShader tr).1 = gl.createProgram tr
    ∧ ∃ calls : List Call,
      (CreateShader gl vertexShader fragmentShader tr).2
        = (CompilerShader gl GLenum.GL_FRAGMENT_SHADER fragmentShader
            (CompilerShader gl GLenum.GL_VERTEX_SHADER vertexShader
              (tr ++ [Call.glCreateProgram (gl.createProgram tr)])).2).2 ++ calls := by
  unfold CreateShader
  simp only []
  refine ⟨trivial, ?_⟩
  split_ifs <;> exact ⟨_, by simp only [List.append_assoc]; rfl⟩

/-- C8: a compile or link failure is never propagated. For an arbitrary graphics driver and
trace: when the compile status read by `CompilerShader` is `GL_FALSE`, it deletes the shader
handle it created and returns 0; and whatever the driver answers for the two compile statuses
and the link status, `CreateShader` creates, sources and compiles a vertex shader and a fragment
shader and returns the program handle it created. -/
theorem failures_are_not_propagated (gl : GLDriver) (tr : List Call) :
    (∀ (type : GLenum) (source : Str), CompilerShader_result gl type source tr = GL_FALSE →
      (CompilerShader gl type source tr).1 = 0
      ∧ ∃ calls : List Call, (CompilerShader gl type source tr).2 = tr ++ calls
          ∧ calls.getLast? = some (Call.glDeleteShader (gl.createShader tr type)))
    ∧ (∀ vertexShader fragmentShader : Str,
      (CreateShader gl vertexShader fragmentShader tr).1 = gl.createProgram tr
      ∧ ∃ (calls : List Call) (vs fs : Nat),
          (CreateShader gl vertexShader fragmentShader tr).2 = tr ++ calls
          ∧ Call.glCreateProgram (gl.createProgram tr) ∈ calls
          ∧ Call.glCreateShader GLenum.GL_VERTEX_SHADER vs ∈ calls
          ∧ Call.glShaderSource vs vertexShader ∈ calls
          ∧ Call.glCompileShader vs ∈ calls
          ∧ Call.glCreateShader GLenum.GL_FRAGMENT_SHADER fs ∈ calls
          ∧ Call.glShaderSource fs fragmentShader ∈ calls
          ∧ Call.glCompileShader fs ∈ calls) := by
  constructor
  · intro type source hfail
    have hfail2 : gl.getShaderiv
        (tr ++ [Call.glCreateShader type (gl.createShader tr type)]
          ++ [Call.glShaderSource (gl.createShader tr type) source]
          ++ [Call.glCompileShader (gl.createShader tr type)])
        (gl.createShader tr type) GLenum.GL_COMPILE_STATUS = GL_FALSE := by
      simpa [CompilerShader_result] using hfail
    unfold CompilerShader
    simp only [hfail2, if_true]
    exact ⟨trivial, _, by simp only [List.append_assoc]; rfl, by simp⟩
  · intro vertexShader fragmentShader
    obtain ⟨c1, hc1, hv1, hv2, hv3⟩ := CompilerShader_calls gl GLenum.GL_VERTEX_SHADER
      vertexShader (tr ++ [Call.glCreateProgram (gl.createProgram tr)])
    obtain ⟨c2, hc2, hf1, hf2, hf3⟩ := CompilerShader_calls gl GLenum.GL_FRAGMENT_SHADER
      fragmentShader
      (CompilerShader gl GLenum.GL_VERTEX_SHADER vertexShader
        (tr ++ [Call.glCreateProgram (gl.createProgram tr)])).2
    obtain ⟨hret, c3, hc3⟩ := CreateShader_calls gl vertexShader fragmentShader tr
    refine ⟨hret, [Call.glCreateProgram (gl.createProgram tr)] ++ c1 ++ c2 ++ c3,
      gl.createShader (tr ++ [Call.glCreateProgram (gl.createProgram tr)])
        GLenum.GL_VERTEX_SHADER,
      gl.createShader (CompilerShader gl GLenum.GL_VERTEX_SHADER vertexShader
        (tr ++ [Call.glCreateProgram (gl.createProgram tr)])).2 GLenum.GL_FRAGMENT_SHADER,
      ?_, ?_, ?_, ?_, ?_, ?_, ?_, ?_⟩
    · rw [hc3, hc2, hc1]
      simp only [List.append_assoc]
    · simp
    · exact List.mem_append_left _ (List.mem_append_left _ (List.mem_append_right _ hv1))
    · exact List.mem_append_left _ (List.mem_append_left _ (List.mem_append_right _ hv2))
    · exact List.mem_append_left _ (List.mem_append_left _ (List.mem_append_right _ hv3))
    · exact List.mem_append_left _ (List.mem_append_right _ hf1)
    · exact List.mem_append_left _ (List.mem_append_right _ hf2)
    · exact List.mem_append_left _ (List.mem_append_right _ hf3)

/-- C8, witness: a driver for which every compile and the link fail. -/
theorem failures_are_not_propagated_witness :
    CompilerShader_result failingDriver GLenum.GL_VERTEX_SHADER "void".toList [] = GL_FALSE
    ∧ (CompilerShader failingDriver GLenum.GL_VERTEX_SHADER "void".toList []).1 = 0
    ∧ (∃ calls : List Call,
        (CompilerShader failingDriver GLenum.GL_VERTEX_SHADER "void".toList []).2 = [] ++ calls
        ∧ calls.getLast? = some (Call.glDeleteShader
            (failingDriver.createShader [] GLenum.GL_VERTEX_SHADER)))
    ∧ (CreateShader failingDriver "void".toList "main".toList []).1 = 1 :=
  ⟨by decide,
    ((failures_are_not_propagated failingDriver []).1 GLenum.GL_VERTEX_SHADER "void".toList
      (by decide)).1,
    ((failures_are_not_propagated failingDriver []).1 GLenum.GL_VERTEX_SHADER "void".toList
      (by decide)).2,
    by decide⟩

/-- C10: in the quad demo the byte count passed to the vertex-buffer upload is
`6 * 2 * sizeof(float) = 48`, while the array `positions` it uploads from holds 8 floats,
32 bytes: the upload reads 16 bytes past the end of the array. The triangle demo passes
`sizeof(positions)`, 24 bytes for its 6 floats. -/
theorem quad_upload_size_exceeds_positions :
    quad_upload_size = 48
    ∧ quad_positions.length = 8
    ∧ sizeof_positions quad_positions = 32
    ∧ sizeof_positions quad_positions + 16 = quad_upload_size
    ∧ quad_upload_size ≠ sizeof_positions quad_positions
    ∧ triangle_upload_size = sizeof_positions triangle_positions
    ∧ triangle_upload_size = 24 := by
  refine ⟨rfl, rfl, rfl, rfl, by decide, rfl, rfl⟩

end OpenGLLearning
